import Mathlib

/-!
Shallow embedding of the two n8n plugin modules of this repository:
the Amazon Textract OCR node (image sync path, PDF upload / async job /
poll / paginate / cleanup path) and the Bedrock Document Processor node
(single converse call per record).  Definitions mirror the TypeScript
source; theorems settle the frozen claims about it.
-/

namespace BedrockExtract

/-- JS string truthiness for an optional string: undefined and the empty
string are falsy, every other string is truthy. -/
def stringTruthy : Option String → Bool
  | none => false
  | some s => s ≠ ""

/-- Character-level model of the JS `String.prototype.startsWith`. -/
def startsWithStr (s p : String) : Bool := p.data.isPrefixOf s.data

def splitAux (c : Char) : List Char → List Char → List (List Char)
  | [], acc => [acc.reverse]
  | x :: xs, acc =>
    if x = c then acc.reverse :: splitAux c xs [] else splitAux c xs (x :: acc)

/-- Character-level model of the JS `String.prototype.split` on a
one-character separator. -/
def splitChar (c : Char) (s : String) : List String :=
  (splitAux c s.data []).map String.mk

/-- One Textract block of a detection response.  Every field is optional,
as in the loosely typed SDK response. -/
structure Block where
  blockType : Option String
  text : Option String
  detectedText : Option String
deriving DecidableEq, Repr

/-- The JS expression `b.Text ?? b.DetectedText ?? ''`: the nullish
coalescing falls back only when the field is absent, not when it is the
empty string. -/
def resolvedTxt (b : Block) : String :=
  match b.text with
  | some t => t
  | none => b.detectedText.getD ""

/-- The guard of the line-collection loop of the source:
`bt === 'LINE' && txt`, with txt truthy meaning non-empty. -/
def keepLine (b : Block) : Bool :=
  b.blockType == some "LINE" && resolvedTxt b != ""

/-- The line-collection loop of the source: keep a block when its type is
LINE and its resolved text is truthy (non-empty). -/
def extractLines (blocks : List Block) : List String :=
  blocks.filterMap fun b => if keepLine b then some (resolvedTxt b) else none

/-- `lines.join('\n')` over the kept lines. -/
def extractedText (blocks : List Block) : String :=
  String.intercalate "\n" (extractLines blocks)

/-- Definition following the words of the spec (step 6 of the job driver):
filter the blocks to LINE type only, take each resolved text, join with
newlines.  Used to compare the spec wording with the source behaviour. -/
def specLineJoin (blocks : List Block) : String :=
  String.intercalate "\n"
    ((blocks.filter fun b => b.blockType == some "LINE").map resolvedTxt)

/-- One `GetDocumentTextDetection` response: job status, blocks and
continuation token are all optional. -/
structure GetResponse where
  jobStatus : Option String
  blocks : Option (List Block)
  nextToken : Option String
deriving DecidableEq, Repr

/-- Terminal statuses of the polling loop. -/
def isTerminal (s : Option String) : Bool :=
  s = some "SUCCEEDED" || s = some "FAILED"

/-- Result of the polling loop: the last response observed (none when no
poll ever ran), the number of status calls issued, and the wall-clock
time in milliseconds, measured from job start, at which the loop exited.
Status calls are modelled as instantaneous, so time advances only by the
fixed 3000 ms sleep of each iteration. -/
structure PollResult where
  lastResp : Option GetResponse
  calls : Nat
  exitTimeMs : Nat
deriving DecidableEq, Repr

/-- The `while (Date.now() < timeoutAt)` loop: the iteration with index k
starts at time 3000 * k, runs only while that is below the deadline,
sleeps 3000 ms, issues one status call and breaks on a terminal status.
The fuel argument counts the iterations the deadline still allows. -/
def pollAux (polls : Nat → GetResponse) : Nat → Nat → Option GetResponse → PollResult
  | 0, k, last => ⟨last, k, 3000 * k⟩
  | fuel + 1, k, _ =>
    let r := polls k
    if isTerminal r.jobStatus then ⟨some r, k + 1, 3000 * (k + 1)⟩
    else pollAux polls fuel (k + 1) (some r)

/-- Number of loop-head checks that pass before the deadline: the least n
with 3000 * n >= timeoutAtMs, i.e. the ceiling of timeoutAtMs / 3000. -/
def numPolls (timeoutAtMs : Nat) : Nat := (timeoutAtMs + 2999) / 3000

def pollLoop (polls : Nat → GetResponse) (timeoutAtMs : Nat) : PollResult :=
  pollAux polls (numPolls timeoutAtMs) 0 none

/-- `(timeoutSeconds || 120) * 1000`: a falsy (zero) configured timeout
falls back to the 120 second default. -/
def effTimeoutMs (timeoutSeconds : Nat) : Nat :=
  (if timeoutSeconds = 0 then 120 else timeoutSeconds) * 1000

/-- The pagination loop over continuation tokens: while the token is
truthy, fetch the next page and append its blocks.  The list holds the
successive responses the service returns to the follow-up calls. -/
def collectPages : Option String → List GetResponse → List Block
  | tok, [] => if stringTruthy tok then [] else []
  | tok, p :: ps =>
    if stringTruthy tok then (p.blocks.getD []) ++ collectPages p.nextToken ps
    else []

/-- All blocks accumulated for a succeeded job: the blocks of the final
poll response followed by the pages reached through continuation tokens. -/
def allBlocks (first : GetResponse) (pages : List GetResponse) : List Block :=
  first.blocks.getD [] ++ collectPages first.nextToken pages

/-- Outcome of the per-record try body: the pushed text on success, the
thrown message on failure. -/
inductive RecordOutcome where
  | success (text : String)
  | failure (msg : String)
deriving DecidableEq, Repr

/-- `${jobStatus}` interpolation: an undefined status prints as the
string "undefined". -/
def statusDisplay : Option String → String
  | some s => s
  | none => "undefined"

/-- Collaborator behaviour for one PDF record: whether the upload throws
(and with what message), the JobId the start call returns, the status
responses of the successive polls, the pages returned to continuation
fetches, and whether the cleanup delete throws. -/
structure PdfEnv where
  uploadErr : Option String
  jobId : Option String
  polls : Nat → GetResponse
  pages : List GetResponse
  deleteErr : Option String

/-- The PDF branch of the try body: upload, start job, poll, check the
final status, paginate and join the line text. -/
def pdfOutcome (env : PdfEnv) (timeoutSeconds : Nat) : RecordOutcome :=
  match env.uploadErr with
  | some m => .failure m
  | none =>
    if stringTruthy env.jobId = false then .failure "Failed to start Textract job"
    else
      match (pollLoop env.polls (effTimeoutMs timeoutSeconds)).lastResp with
      | none => .failure ("Textract job did not complete successfully: " ++ statusDisplay none)
      | some r =>
        if r.jobStatus ≠ some "SUCCEEDED" then
          .failure ("Textract job did not complete successfully: " ++ statusDisplay r.jobStatus)
        else .success (extractedText (allBlocks r env.pages))

/-- Observable object-storage events of a record, in order.  Both are
attempts: the key is recorded before the upload call, and the delete in
the finally block runs whenever a key was recorded. -/
inductive S3Event where
  | put (key : String)
  | delete (key : String)
deriving DecidableEq, Repr

/-- One output record of the OCR node. -/
inductive OutputRecord where
  | text (s : String)
  | error (s : String)
  | warning (s : String)
deriving DecidableEq, Repr

/-- The finally-block warning: pushed only when the delete threw and
continueOnFail is on. -/
def deleteWarning (key : String) (deleteErr : Option String) (tolerant : Bool) :
    List OutputRecord :=
  match deleteErr with
  | some m =>
    if tolerant then [.warning ("Failed to delete S3 object " ++ key ++ ": " ++ m)] else []
  | none => []

/-- Resolved input and collaborator behaviour for one OCR record. -/
structure OcrRecordEnv where
  fileType : String
  detectBlocks : List Block
  pdf : PdfEnv
  key : String

/-- The try body of one OCR record: MIME gate, then the synchronous image
path or the asynchronous PDF path. -/
def ocrOutcome (env : OcrRecordEnv) (timeoutSeconds : Nat) : RecordOutcome :=
  if env.fileType ≠ "application/pdf" ∧ startsWithStr env.fileType "image/" = false then
    .failure ("Unsupported MIME type: " ++ env.fileType)
  else if startsWithStr env.fileType "image/" then
    .success (extractedText env.detectBlocks)
  else pdfOutcome env.pdf timeoutSeconds

/-- Object-storage events of one OCR record: only the PDF branch touches
storage, and it records exactly one put and one delete attempt. -/
def ocrEvents (env : OcrRecordEnv) : List S3Event :=
  if env.fileType ≠ "application/pdf" ∧ startsWithStr env.fileType "image/" = false then []
  else if startsWithStr env.fileType "image/" then []
  else [.put env.key, .delete env.key]

/-- The records the finally block of one OCR record appends: nothing on
the non-PDF branches (no key was recorded), the cleanup warning on the
PDF branch. -/
def cleanupRecords (env : OcrRecordEnv) (tolerant : Bool) : List OutputRecord :=
  if env.fileType ≠ "application/pdf" ∧ startsWithStr env.fileType "image/" = false then []
  else if startsWithStr env.fileType "image/" then []
  else deleteWarning env.key env.pdf.deleteErr tolerant

/-- The records one OCR record appends plus the propagated error, if any:
the catch converts the failure into an error record under continueOnFail
and rethrows otherwise; the finally block then appends the cleanup
warning (tolerant mode only). -/
def processOcrRecord (env : OcrRecordEnv) (timeoutSeconds : Nat) (tolerant : Bool) :
    List OutputRecord × Option String :=
  match ocrOutcome env timeoutSeconds with
  | .success s => (OutputRecord.text s :: cleanupRecords env tolerant, none)
  | .failure m =>
    if tolerant then (OutputRecord.error m :: cleanupRecords env tolerant, none)
    else (cleanupRecords env tolerant, some m)

/-- The batch loop of the OCR node: records strictly in order; a
propagated error stops the batch at once. The third component is the
stream of storage events, in order. -/
def runOcrBatch (timeoutSeconds : Nat) (tolerant : Bool) :
    List OcrRecordEnv → List OutputRecord × Option String × List S3Event
  | [] => ([], none, [])
  | env :: rest =>
    match processOcrRecord env timeoutSeconds tolerant with
    | (outs, some m) => (outs, some m, ocrEvents env)
    | (outs, none) =>
      match runOcrBatch timeoutSeconds tolerant rest with
      | (outs2, ab2, ev2) => (outs ++ outs2, ab2, ocrEvents env ++ ev2)

/-- The host-supplied AWS credential object: every field may be absent. -/
structure AwsCreds where
  accessKeyId : Option String
  secretAccessKey : Option String
  region : Option String

/-- The fail-fast check of the OCR node:
`!credentials.accessKeyId || !credentials.secretAccessKey`. -/
def credsOk (c : AwsCreds) : Bool :=
  stringTruthy c.accessKeyId && stringTruthy c.secretAccessKey

/-- Top-level execute of the OCR node: credential check, bucket check,
then the batch; a propagated per-record error aborts the whole call. -/
def ocrExecute (creds : AwsCreds) (s3Bucket : String) (timeoutSeconds : Nat)
    (tolerant : Bool) (records : List OcrRecordEnv) : Except String (List OutputRecord) :=
  if credsOk creds = false then .error "AWS credentials are missing or incomplete"
  else if s3Bucket = "" then .error "S3 bucket must be provided"
  else
    match runOcrBatch timeoutSeconds tolerant records with
    | (outs, none, _) => .ok outs
    | (_, some m, _) => .error m

/-- Token-usage counters of a converse reply; `response.usage || {}`
defaults every field to absent. -/
structure Usage where
  inputTokens : Option Nat
  outputTokens : Option Nat
  totalTokens : Option Nat
deriving DecidableEq, Repr

def emptyUsage : Usage := ⟨none, none, none⟩

/-- One content block of the model reply; its text field may be absent. -/
structure ContentBlockOut where
  text : Option String
deriving DecidableEq, Repr

/-- The converse reply: the chain
`response.output?.message?.content` collapsed into one optional block
list, plus optional usage and stop reason. -/
structure ConverseReply where
  contentBlocks : Option (List ContentBlockOut)
  usage : Option Usage
  stopReason : Option String
deriving DecidableEq, Repr

/-- `response.output?.message?.content?.[0]?.text || ''`. -/
def replyText (r : ConverseReply) : String :=
  match r.contentBlocks with
  | none => ""
  | some l =>
    match l.head? with
    | none => ""
    | some cb => cb.text.getD ""

/-- One part of the single-turn message content sent to the model. -/
inductive ContentPart where
  | text (s : String)
  | image (format : String) (bytes : List Nat)
  | document (format name : String) (bytes : List Nat)
deriving DecidableEq, Repr

/-- The one ConverseCommand issued per record. -/
structure ConverseRequest where
  modelId : String
  content : List ContentPart
  maxTokens : Nat
  temperature : Rat
  topP : Rat
deriving DecidableEq, Repr

/-- `fileType.split('/')[1]`, the image format sent to the model. -/
def imageFormat (fileType : String) : String := (splitChar '/' fileType).getD 1 ""

/-- The content array built per record: the instruction text always, then
an inlined image part for image MIME types, an inlined document part for
the PDF MIME type, and nothing else otherwise. -/
def bedrockContent (message fileType : String) (bytes : List Nat) : List ContentPart :=
  [ContentPart.text message] ++
    (if startsWithStr fileType "image/" then [.image (imageFormat fileType) bytes]
     else if fileType = "application/pdf" then [.document "pdf" "document" bytes]
     else [])

/-- Resolved input and collaborator behaviour for one Bedrock record: the
instruction, the resolved file, the reply the model returns, and whether
the converse call throws instead. -/
structure BedrockRecordEnv where
  message : String
  fileType : String
  fileBytes : List Nat
  reply : ConverseReply
  converseErr : Option String

/-- One output record of the Bedrock node. -/
inductive BedrockOutput where
  | result (response : String) (usage : Usage) (stopReason : Option String)
  | error (msg : String)
deriving DecidableEq, Repr

/-- The ConverseCommand the record issues: configured model id, max
tokens and temperature, and the fixed topP of 0.9. -/
def bedrockRequest (modelId : String) (maxTokens : Nat) (temperature : Rat)
    (env : BedrockRecordEnv) : ConverseRequest :=
  ⟨modelId, bedrockContent env.message env.fileType env.fileBytes,
    maxTokens, temperature, 9 / 10⟩

/-- One Bedrock record: the appended output records, the propagated error
if any, and the converse calls issued (always exactly one). -/
def processBedrockRecord (modelId : String) (maxTokens : Nat) (temperature : Rat)
    (env : BedrockRecordEnv) (tolerant : Bool) :
    List BedrockOutput × Option String × List ConverseRequest :=
  let req := bedrockRequest modelId maxTokens temperature env
  match env.converseErr with
  | some m => if tolerant then ([.error m], none, [req]) else ([], some m, [req])
  | none =>
    ([.result (replyText env.reply) (env.reply.usage.getD emptyUsage) env.reply.stopReason],
      none, [req])

/-- The batch loop of the Bedrock node. -/
def runBedrockBatch (modelId : String) (maxTokens : Nat) (temperature : Rat)
    (tolerant : Bool) :
    List BedrockRecordEnv → List BedrockOutput × Option String × List ConverseRequest
  | [] => ([], none, [])
  | env :: rest =>
    match processBedrockRecord modelId maxTokens temperature env tolerant with
    | (outs, some m, reqs) => (outs, some m, reqs)
    | (outs, none, reqs) =>
      match runBedrockBatch modelId maxTokens temperature tolerant rest with
      | (outs2, ab2, reqs2) => (outs ++ outs2, ab2, reqs ++ reqs2)

/-- Top-level execute of the Bedrock node.  The credential object is
fetched and handed to the client, but no presence check is made on it:
execution proceeds straight to the batch. -/
def bedrockExecute (creds : AwsCreds) (modelId : String) (maxTokens : Nat)
    (temperature : Rat) (tolerant : Bool) (records : List BedrockRecordEnv) :
    Except String (List BedrockOutput) :=
  let _unusedCreds := creds
  match runBedrockBatch modelId maxTokens temperature tolerant records with
  | (outs, none, _) => .ok outs
  | (_, some m, _) => .error m

/-! ### Helper lemmas -/

theorem filterMap_guard {α β : Type} (p : α → Bool) (f : α → β) (l : List α) :
    (l.filterMap fun a => if p a then some (f a) else none) = (l.filter p).map f := by
  induction l with
  | nil => rfl
  | cons a as ih =>
    cases hp : p a <;>
      simp [List.filterMap_cons, List.filter_cons, hp, ih]

theorem extractLines_eq_filter (blocks : List Block) :
    extractLines blocks = (blocks.filter keepLine).map resolvedTxt :=
  filterMap_guard keepLine resolvedTxt blocks

theorem pollAux_time (polls : Nat → GetResponse) (fuel : Nat) :
    ∀ k last, (pollAux polls fuel k last).exitTimeMs = 3000 * (pollAux polls fuel k last).calls := by
  induction fuel with
  | zero => intro k last; rfl
  | succ f ih =>
    intro k last
    simp only [pollAux]
    split
    · rfl
    · exact ih (k + 1) _

theorem pollAux_calls_le (polls : Nat → GetResponse) (fuel : Nat) :
    ∀ k last, (pollAux polls fuel k last).calls ≤ k + fuel := by
  induction fuel with
  | zero => intro k last; simp [pollAux]
  | succ f ih =>
    intro k last
    simp only [pollAux]
    split
    · simp
    · have := ih (k + 1) (some (polls k))
      exact Nat.le_trans this (by omega)

theorem pollAux_calls_ge (polls : Nat → GetResponse) (fuel : Nat) :
    ∀ k last, k ≤ (pollAux polls fuel k last).calls := by
  induction fuel with
  | zero => intro k last; simp [pollAux]
  | succ f ih =>
    intro k last
    simp only [pollAux]
    split
    · simp
    · exact Nat.le_trans (Nat.le_succ k) (ih (k + 1) _)

theorem pollAux_min (polls : Nat → GetResponse) (fuel : Nat) :
    ∀ k last j, k ≤ j → j + 1 < (pollAux polls fuel k last).calls →
      isTerminal (polls j).jobStatus = false := by
  induction fuel with
  | zero =>
    intro k last j hkj hj
    simp [pollAux] at hj
    omega
  | succ f ih =>
    intro k last j hkj hj
    simp only [pollAux] at hj
    by_cases ht : isTerminal (polls k).jobStatus = true
    · rw [if_pos ht] at hj
      simp at hj
      omega
    · rw [if_neg ht] at hj
      rcases Nat.eq_or_lt_of_le hkj with h | h
      · subst h
        exact Bool.eq_false_iff.mpr ht
      · exact ih (k + 1) (some (polls k)) j h hj

theorem pollAux_early (polls : Nat → GetResponse) (fuel : Nat) :
    ∀ k last, (pollAux polls fuel k last).calls < k + fuel →
      ∃ r, (pollAux polls fuel k last).lastResp = some r ∧ isTerminal r.jobStatus = true := by
  induction fuel with
  | zero => intro k last h; simp [pollAux] at h
  | succ f ih =>
    intro k last h
    simp only [pollAux] at h ⊢
    by_cases ht : isTerminal (polls k).jobStatus = true
    · rw [if_pos ht]
      exact ⟨polls k, rfl, ht⟩
    · rw [if_neg ht] at h ⊢
      exact ih (k + 1) (some (polls k)) (by omega)

theorem numPolls_timeout (T : Nat) : numPolls (T * 1000) = (T + 2) / 3 := by
  unfold numPolls; omega

theorem countErrors_nil_warning (key : String) (e : Option String) (tol : Bool) :
    ((deleteWarning key e tol).filter fun r =>
      match r with | .error _ => true | _ => false).length = 0 := by
  cases e <;> cases tol <;> simp [deleteWarning]

/-- Number of error records in an OCR output list. -/
def countErrors (l : List OutputRecord) : Nat :=
  (l.filter fun r => match r with | .error _ => true | _ => false).length

/-! ### Claim theorems -/

/-- C10: for a PDF record whose configured timeoutSeconds is 0 (falsy),
the polling deadline is computed from the 120 second default, so a zero
timeout means up to 120 seconds of polling (40 poll slots), and the
record behaves exactly as with a configured timeout of 120. -/
theorem C10_default_timeout :
    effTimeoutMs 0 = 120 * 1000
    ∧ (∀ env : PdfEnv, pdfOutcome env 0 = pdfOutcome env 120)
    ∧ numPolls (effTimeoutMs 0) = 40 :=
  ⟨rfl, fun _ => rfl, rfl⟩

def noCreds : AwsCreds := ⟨none, none, none⟩

def okReply : ConverseReply :=
  ⟨some [⟨some "A red circle"⟩], some ⟨some 5, some 7, some 12⟩, some "end_turn"⟩

def missingCredsRecord : BedrockRecordEnv :=
  ⟨"describe this image", "image/png", [1, 2, 3], okReply, none⟩

/-- C6 counterexample: with an entirely absent access-key/secret pair the
model-invocation module does not fail fast with a configuration error:
it processes the record and returns a normal success output. -/
theorem C6_counterexample :
    credsOk noCreds = false
    ∧ bedrockExecute noCreds "model-a" 256 (7 / 10) true [missingCredsRecord]
        = Except.ok [.result "A red circle" ⟨some 5, some 7, some 12⟩ (some "end_turn")] :=
  ⟨rfl, rfl⟩

/-- C6 amended: only the OCR module fails fast with a configuration
error when the key pair is absent, before any record is processed; the
model-invocation module makes no credential presence check at all and
its behaviour is independent of the credential object. -/
theorem C6_amended (creds : AwsCreds) (h : credsOk creds = false) :
    (∀ bucket t tol records, ocrExecute creds bucket t tol records
        = Except.error "AWS credentials are missing or incomplete")
    ∧ (∀ creds2 modelId mt temp tol records,
        bedrockExecute creds modelId mt temp tol records
          = bedrockExecute creds2 modelId mt temp tol records) := by
  constructor
  · intro bucket t tol records
    simp [ocrExecute, h]
  · intro creds2 modelId mt temp tol records
    rfl

theorem C6_amended_witness :
    ocrExecute noCreds "bucket" 30 true []
      = Except.error "AWS credentials are missing or incomplete" :=
  (C6_amended noCreds rfl).1 "bucket" 30 true []

def cexBlocks : List Block :=
  [⟨some "LINE", some "a", none⟩, ⟨some "LINE", some "", some "x"⟩,
    ⟨some "LINE", some "b", none⟩]

def cexPage : GetResponse := ⟨some "SUCCEEDED", some cexBlocks, none⟩

def cexPdfEnv : PdfEnv := ⟨none, some "job-1", fun _ => cexPage, [], none⟩

/-- C1 counterexample: a LINE block whose primary Text field is present
but empty is dropped by the code (the truthiness guard), while the claim
joins the text of every LINE block; on a succeeded job with line texts
"a", "" and "b" the code yields "a\nb" where the claim demands
"a\n\nb". -/
theorem C1_counterexample :
    pdfOutcome cexPdfEnv 30 = .success "a\nb"
    ∧ specLineJoin (allBlocks cexPage []) = "a\n\nb"
    ∧ ("a\nb" : String) ≠ "a\n\nb" :=
  ⟨rfl, rfl, by decide⟩

/-- C1 amended: for a PDF record whose job reaches SUCCEEDED, the output
text equals the newline-joined concatenation, in service order across
all result pages, of the resolved text (primary Text field, falling back
to DetectedText when the primary is absent) of every LINE block whose
resolved text is non-empty. -/
theorem C1_amended (env : PdfEnv) (t : Nat) (r : GetResponse)
    (hup : env.uploadErr = none)
    (hjob : stringTruthy env.jobId = true)
    (hlast : (pollLoop env.polls (effTimeoutMs t)).lastResp = some r)
    (hst : r.jobStatus = some "SUCCEEDED") :
    pdfOutcome env t
      = .success (String.intercalate "\n"
          (((allBlocks r env.pages).filter keepLine).map resolvedTxt)) := by
  simp only [pdfOutcome, hup, hjob, hlast, hst, extractedText, extractLines_eq_filter]
  simp

def w1Page2 : GetResponse := ⟨none, some [⟨some "LINE", some "Page2Line", none⟩], none⟩

def w1Page1 : GetResponse :=
  ⟨some "SUCCEEDED", some [⟨some "LINE", some "Page1Line", none⟩], some "tok1"⟩

def w1Env : PdfEnv := ⟨none, some "jid", fun _ => w1Page1, [w1Page2], none⟩

theorem C1_amended_witness :
    pdfOutcome w1Env 30 = .success "Page1Line\nPage2Line" :=
  (C1_amended w1Env 30 w1Page1 rfl rfl rfl rfl).trans (by decide)

theorem pollAux_calls_pos (polls : Nat → GetResponse) (fuel k : Nat)
    (last : Option GetResponse) (h : fuel ≠ 0) :
    k + 1 ≤ (pollAux polls fuel k last).calls := by
  cases fuel with
  | zero => exact absurd rfl h
  | succ f =>
    simp only [pollAux]
    split
    · simp
    · exact pollAux_calls_ge polls f (k + 1) _

/-- C3: the polling loop sleeps a fixed 3 second interval before each
status fetch (so the exit time is 3000 ms times the number of calls),
terminates within timeoutSeconds plus one poll interval of job start,
runs at least one iteration, issues at most ceil(timeoutSeconds/3) + 1
status calls, and exits as soon as a terminal status is observed or the
wall clock passes the deadline (an early exit always carries a terminal
last response). -/
theorem C3_polling (polls : Nat → GetResponse) (T : Nat) (hT : 0 < T) :
    (pollLoop polls (effTimeoutMs T)).exitTimeMs
        = 3000 * (pollLoop polls (effTimeoutMs T)).calls
    ∧ (pollLoop polls (effTimeoutMs T)).exitTimeMs ≤ T * 1000 + 3000
    ∧ 1 ≤ (pollLoop polls (effTimeoutMs T)).calls
    ∧ (pollLoop polls (effTimeoutMs T)).calls ≤ (T + 2) / 3 + 1
    ∧ (∀ j, j + 1 < (pollLoop polls (effTimeoutMs T)).calls →
        isTerminal (polls j).jobStatus = false)
    ∧ ((pollLoop polls (effTimeoutMs T)).calls < numPolls (effTimeoutMs T) →
        ∃ r, (pollLoop polls (effTimeoutMs T)).lastResp = some r
          ∧ isTerminal r.jobStatus = true) := by
  have heff : effTimeoutMs T = T * 1000 := by
    unfold effTimeoutMs
    rw [if_neg (Nat.pos_iff_ne_zero.mp hT)]
  have htime : (pollLoop polls (effTimeoutMs T)).exitTimeMs
      = 3000 * (pollLoop polls (effTimeoutMs T)).calls :=
    pollAux_time polls (numPolls (effTimeoutMs T)) 0 none
  have hle : (pollLoop polls (effTimeoutMs T)).calls ≤ numPolls (effTimeoutMs T) := by
    have := pollAux_calls_le polls (numPolls (effTimeoutMs T)) 0 none
    simpa [pollLoop] using this
  have hnum : numPolls (effTimeoutMs T) = (T + 2) / 3 := by
    rw [heff]; exact numPolls_timeout T
  refine ⟨htime, ?_, ?_, ?_, ?_, ?_⟩
  · rw [htime]
    have : 3000 * (pollLoop polls (effTimeoutMs T)).calls ≤ 3000 * ((T + 2) / 3) := by
      exact Nat.mul_le_mul_left 3000 (hnum ▸ hle)
    refine Nat.le_trans this ?_
    omega
  · have hfz : numPolls (effTimeoutMs T) ≠ 0 := by
      rw [hnum]; omega
    have := pollAux_calls_pos polls (numPolls (effTimeoutMs T)) 0 none hfz
    simpa [pollLoop] using this
  · rw [hnum] at hle; omega
  · intro j hj
    exact pollAux_min polls (numPolls (effTimeoutMs T)) 0 none j (Nat.zero_le j) hj
  · intro hlt
    have := pollAux_early polls (numPolls (effTimeoutMs T)) 0 none (by simpa using hlt)
    simpa [pollLoop] using this

def inProgressPolls : Nat → GetResponse := fun _ => ⟨some "IN_PROGRESS", none, none⟩

theorem C3_polling_witness :
    (pollLoop inProgressPolls (effTimeoutMs 7)).exitTimeMs ≤ 7 * 1000 + 3000 :=
  (C3_polling inProgressPolls 7 (by decide)).2.1

/-- The jobStatus variable at loop exit: the JobStatus field of the last
observed response, absent when it never held one. -/
def lastStatus (env : PdfEnv) (t : Nat) : Option String :=
  (pollLoop env.polls (effTimeoutMs t)).lastResp.bind fun r => r.jobStatus

/-- C4: a PDF record whose polling loop exits without a SUCCEEDED status
(a FAILED terminal status or a timeout with a non-terminal status) fails
with an error carrying the last observed status string, "undefined" when
none was ever observed; the status string determines whether the status
was FAILED, so a FAILED exit is distinguishable from a timed-out one. -/
theorem C4_job_incomplete (env : PdfEnv) (t : Nat)
    (hup : env.uploadErr = none)
    (hjob : stringTruthy env.jobId = true)
    (hns : lastStatus env t ≠ some "SUCCEEDED") :
    pdfOutcome env t
      = .failure ("Textract job did not complete successfully: "
          ++ statusDisplay (lastStatus env t))
    ∧ (∀ s : Option String, statusDisplay s = "FAILED" → s = some "FAILED")
    ∧ statusDisplay (some "FAILED") ≠ statusDisplay (some "IN_PROGRESS")
    ∧ statusDisplay (some "FAILED") ≠ statusDisplay none := by
  refine ⟨?_, ?_, by decide, by decide⟩
  · unfold lastStatus at hns ⊢
    unfold pdfOutcome
    cases hl : (pollLoop env.polls (effTimeoutMs t)).lastResp with
    | none => simp [hup, hjob, hl]
    | some r =>
      rw [hl] at hns
      have hns2 : r.jobStatus ≠ some "SUCCEEDED" := by simpa using hns
      simp [hup, hjob, hl, hns2]
  · intro s hs
    cases s with
    | none => exact absurd hs (by decide)
    | some str =>
      simp only [statusDisplay] at hs
      rw [hs]

def timeoutPdfEnv : PdfEnv := ⟨none, some "jid", inProgressPolls, [], none⟩

theorem C4_job_incomplete_witness :
    pdfOutcome timeoutPdfEnv 3
      = .failure "Textract job did not complete successfully: IN_PROGRESS" :=
  ((C4_job_incomplete timeoutPdfEnv 3 rfl rfl (by decide)).1).trans (by decide)

theorem processOcr_tolerant_no_abort (env : OcrRecordEnv) (t : Nat) :
    (processOcrRecord env t true).2 = none := by
  unfold processOcrRecord
  cases hoc : ocrOutcome env t <;> simp

theorem cleanupRecords_strict (env : OcrRecordEnv) :
    cleanupRecords env false = [] := by
  unfold cleanupRecords deleteWarning
  split
  · rfl
  · split
    · rfl
    · cases env.pdf.deleteErr <;> simp

theorem countErrors_cleanup (env : OcrRecordEnv) (tol : Bool) :
    countErrors (cleanupRecords env tol) = 0 := by
  unfold cleanupRecords deleteWarning countErrors
  split
  · rfl
  · split
    · rfl
    · cases env.pdf.deleteErr <;> cases tol <;> simp

/-- C2: a PDF record performs exactly one upload attempt and exactly one
deletion attempt, in that order, before the batch moves on; a deletion
failure changes neither the propagated error nor the number of error
records (it can only add a warning record); and in the batch the put and
delete events of the record precede every event of later records. -/
theorem C2_cleanup (env : OcrRecordEnv) (t : Nat)
    (hp : env.fileType = "application/pdf") :
    ocrEvents env = [S3Event.put env.key, S3Event.delete env.key]
    ∧ (∀ m tol,
        (processOcrRecord { env with pdf := { env.pdf with deleteErr := some m } } t tol).2
          = (processOcrRecord { env with pdf := { env.pdf with deleteErr := none } } t tol).2)
    ∧ (∀ m tol,
        countErrors
            (processOcrRecord { env with pdf := { env.pdf with deleteErr := some m } } t tol).1
          = countErrors
            (processOcrRecord { env with pdf := { env.pdf with deleteErr := none } } t tol).1)
    ∧ (∀ rs, (runOcrBatch t true (env :: rs)).2.2
        = [S3Event.put env.key, S3Event.delete env.key] ++ (runOcrBatch t true rs).2.2) := by
  have him : startsWithStr "application/pdf" "image/" = false := rfl
  have hev : ocrEvents env = [S3Event.put env.key, S3Event.delete env.key] := by
    unfold ocrEvents
    rw [hp]
    simp [him]
  have ho : ∀ x, ocrOutcome { env with pdf := { env.pdf with deleteErr := x } } t
      = ocrOutcome env t := fun _ => rfl
  refine ⟨hev, ?_, ?_, ?_⟩
  · intro m tol
    unfold processOcrRecord
    rw [ho (some m), ho none]
    cases hoc : ocrOutcome env t with
    | success s => simp
    | failure msg => cases tol <;> simp
  · intro m tol
    have hct : ∀ s l, countErrors (OutputRecord.text s :: l) = countErrors l := by
      intro s l
      simp [countErrors, List.filter_cons]
    have hce : ∀ m2 l, countErrors (OutputRecord.error m2 :: l) = countErrors l + 1 := by
      intro m2 l
      simp [countErrors, List.filter_cons]
    unfold processOcrRecord
    rw [ho (some m), ho none]
    cases hoc : ocrOutcome env t with
    | success s =>
      show countErrors (OutputRecord.text s :: cleanupRecords _ tol)
        = countErrors (OutputRecord.text s :: cleanupRecords _ tol)
      rw [hct, hct, countErrors_cleanup, countErrors_cleanup]
    | failure msg =>
      cases tol with
      | false =>
        show countErrors (cleanupRecords _ false) = countErrors (cleanupRecords _ false)
        rw [cleanupRecords_strict, cleanupRecords_strict]
      | true =>
        show countErrors (OutputRecord.error msg :: cleanupRecords _ true)
          = countErrors (OutputRecord.error msg :: cleanupRecords _ true)
        rw [hce, hce, countErrors_cleanup, countErrors_cleanup]
  · intro rs
    have hab : (processOcrRecord env t true).2 = none := processOcr_tolerant_no_abort env t
    cases hpr : processOcrRecord env t true with
    | mk outs ab =>
      rw [hpr] at hab
      simp only at hab
      subst hab
      cases hrb : runOcrBatch t true rs with
      | mk outs2 rest2 =>
        cases rest2 with
        | mk ab2 ev2 =>
          simp [runOcrBatch, hpr, hrb, hev]

def c2Env : OcrRecordEnv :=
  ⟨"application/pdf", [], ⟨none, some "jid", inProgressPolls, [], none⟩, "k1"⟩

theorem C2_cleanup_witness :
    ocrEvents c2Env = [S3Event.put c2Env.key, S3Event.delete c2Env.key] :=
  (C2_cleanup c2Env 3 rfl).1

/-- C7: an OCR record whose MIME type is neither exactly application/pdf
nor an image type fails with the unsupported-MIME-type error and touches
no storage; an image record takes the synchronous detection path and
also touches no storage. -/
theorem C7_mime_gate (env : OcrRecordEnv) (t : Nat) :
    (env.fileType ≠ "application/pdf" → startsWithStr env.fileType "image/" = false →
      ocrOutcome env t = .failure ("Unsupported MIME type: " ++ env.fileType)
      ∧ ocrEvents env = [])
    ∧ (startsWithStr env.fileType "image/" = true →
      ocrOutcome env t = .success (extractedText env.detectBlocks)
      ∧ ocrEvents env = []) := by
  constructor
  · intro h1 h2
    constructor
    · unfold ocrOutcome
      rw [if_pos ⟨h1, h2⟩]
    · unfold ocrEvents
      rw [if_pos ⟨h1, h2⟩]
  · intro h
    have h1 : ¬(env.fileType ≠ "application/pdf"
        ∧ startsWithStr env.fileType "image/" = false) := by
      simp [h]
    constructor
    · unfold ocrOutcome
      rw [if_neg h1, if_pos h]
    · unfold ocrEvents
      rw [if_neg h1, if_pos h]

def jsonEnv : OcrRecordEnv :=
  ⟨"application/json", [], ⟨none, none, inProgressPolls, [], none⟩, "k"⟩

def pngEnv : OcrRecordEnv :=
  ⟨"image/png",
    [⟨some "LINE", some "Hello", none⟩, ⟨some "LINE", some "World", none⟩],
    ⟨none, none, inProgressPolls, [], none⟩, "k"⟩

theorem C7_mime_gate_witness :
    (ocrOutcome jsonEnv 3 = .failure "Unsupported MIME type: application/json"
      ∧ ocrEvents jsonEnv = [])
    ∧ (ocrOutcome pngEnv 3 = .success "Hello\nWorld" ∧ ocrEvents pngEnv = []) := by
  constructor
  · have h := (C7_mime_gate jsonEnv 3).1 (by decide) rfl
    exact ⟨h.1.trans (by decide), h.2⟩
  · have h := (C7_mime_gate pngEnv 3).2 rfl
    exact ⟨h.1.trans (by decide), h.2⟩

/-- C5: in both modules, a failing record under partial-failure
tolerance contributes exactly one error output record and the batch
continues with the remaining records; with tolerance disabled the first
failing record aborts the batch at once, propagating the failure, with
no output records and no events from later records. -/
theorem C5_batch_policy (t : Nat) (modelId : String) (mt : Nat) (temp : Rat) :
    (∀ env m rs, ocrOutcome env t = .failure m →
      ((runOcrBatch t true (env :: rs)).1
          = (processOcrRecord env t true).1 ++ (runOcrBatch t true rs).1
        ∧ countErrors (processOcrRecord env t true).1 = 1)
      ∧ runOcrBatch t false (env :: rs) = ([], some m, ocrEvents env))
    ∧ (∀ env m rs, env.converseErr = some m →
      ((runBedrockBatch modelId mt temp true (env :: rs)).1
          = BedrockOutput.error m :: (runBedrockBatch modelId mt temp true rs).1)
      ∧ runBedrockBatch modelId mt temp false (env :: rs)
          = ([], some m, [bedrockRequest modelId mt temp env])) := by
  constructor
  · intro env m rs hf
    constructor
    · constructor
      · have hab : (processOcrRecord env t true).2 = none :=
          processOcr_tolerant_no_abort env t
        cases hpr : processOcrRecord env t true with
        | mk outs ab =>
          rw [hpr] at hab
          simp only at hab
          subst hab
          cases hrb : runOcrBatch t true rs with
          | mk outs2 rest2 =>
            cases rest2 with
            | mk ab2 ev2 =>
              simp [runOcrBatch, hpr, hrb]
      · unfold processOcrRecord
        rw [hf]
        simp only [if_pos]
        rw [show countErrors (OutputRecord.error m :: cleanupRecords env true)
            = countErrors (cleanupRecords env true) + 1 from by
          simp [countErrors, List.filter_cons]]
        rw [countErrors_cleanup]
    · have hpr : processOcrRecord env t false = ([], some m) := by
        unfold processOcrRecord
        rw [hf, cleanupRecords_strict]
        simp
      simp [runOcrBatch, hpr]
  · intro env m rs hf
    constructor
    · have hpr : processBedrockRecord modelId mt temp env true
          = ([BedrockOutput.error m], none, [bedrockRequest modelId mt temp env]) := by
        unfold processBedrockRecord
        rw [hf]
        simp
      cases hrb : runBedrockBatch modelId mt temp true rs with
      | mk outs2 rest2 =>
        cases rest2 with
        | mk ab2 reqs2 =>
          simp [runBedrockBatch, hpr, hrb]
    · have hpr : processBedrockRecord modelId mt temp env false
          = ([], some m, [bedrockRequest modelId mt temp env]) := by
        unfold processBedrockRecord
        rw [hf]
        simp
      simp [runBedrockBatch, hpr]

def c5FailEnv : OcrRecordEnv :=
  ⟨"application/json", [], ⟨none, none, inProgressPolls, [], none⟩, "k"⟩

theorem C5_batch_policy_witness :
    runOcrBatch 3 false (c5FailEnv :: [])
      = ([], some "Unsupported MIME type: application/json", ocrEvents c5FailEnv) :=
  ((C5_batch_policy 3 "mdl" 100 (1 / 2)).1 c5FailEnv
    "Unsupported MIME type: application/json" [] (by decide)).2

/-- C8: every Bedrock record issues exactly one converse call, with the
configured model id, max tokens and temperature and the fixed topP of
0.9, whose content is the instruction text followed by an inlined image
part (format taken from the MIME subtype) for image input or an inlined
document part for PDF input; on success the output record carries the
first content block text of the reply (empty when absent), the usage
metadata and the stop reason. -/
theorem C8_converse (modelId : String) (mt : Nat) (temp : Rat)
    (env : BedrockRecordEnv) (tol : Bool) :
    (processBedrockRecord modelId mt temp env tol).2.2
      = [⟨modelId,
          ContentPart.text env.message ::
            (if startsWithStr env.fileType "image/" then
              [ContentPart.image (imageFormat env.fileType) env.fileBytes]
            else if env.fileType = "application/pdf" then
              [ContentPart.document "pdf" "document" env.fileBytes]
            else []),
          mt, temp, 9 / 10⟩]
    ∧ (env.converseErr = none →
        (processBedrockRecord modelId mt temp env tol).1
          = [BedrockOutput.result
              (match env.reply.contentBlocks with
                | some (cb :: _) => cb.text.getD ""
                | some [] => ""
                | none => "")
              (env.reply.usage.getD emptyUsage) env.reply.stopReason]) := by
  constructor
  · unfold processBedrockRecord bedrockRequest bedrockContent
    cases env.converseErr <;> cases tol <;> simp
  · intro h
    unfold processBedrockRecord
    rw [h]
    have hrt : replyText env.reply
        = (match env.reply.contentBlocks with
            | some (cb :: _) => cb.text.getD ""
            | some [] => ""
            | none => "") := by
      unfold replyText
      cases hcb : env.reply.contentBlocks with
      | none => rfl
      | some l => cases l <;> rfl
    simp [hrt]

def c8Env : BedrockRecordEnv :=
  ⟨"describe", "image/png", [9], ⟨some [⟨some "hi"⟩], none, some "end_turn"⟩, none⟩

theorem C8_converse_witness :
    (processBedrockRecord "mdl" 100 (1 / 2) c8Env true).1
      = [BedrockOutput.result "hi" emptyUsage (some "end_turn")] :=
  ((C8_converse "mdl" 100 (1 / 2) c8Env true).2 rfl).trans (by decide)

/-- C9: a Bedrock record whose MIME type is neither an image type nor
application/pdf raises no error: the file bytes are omitted, the one
converse call carries the instruction text alone, no failure propagates,
and a normal success output record is produced. -/
theorem C9_other_mime (modelId : String) (mt : Nat) (temp : Rat)
    (env : BedrockRecordEnv) (tol : Bool)
    (hni : startsWithStr env.fileType "image/" = false)
    (hnp : env.fileType ≠ "application/pdf")
    (hok : env.converseErr = none) :
    (processBedrockRecord modelId mt temp env tol).2.2
      = [⟨modelId, [ContentPart.text env.message], mt, temp, 9 / 10⟩]
    ∧ (processBedrockRecord modelId mt temp env tol).2.1 = none
    ∧ (processBedrockRecord modelId mt temp env tol).1
      = [BedrockOutput.result (replyText env.reply)
          (env.reply.usage.getD emptyUsage) env.reply.stopReason] := by
  unfold processBedrockRecord bedrockRequest bedrockContent
  rw [hok]
  simp [hni, hnp]

def c9Env : BedrockRecordEnv :=
  ⟨"summarize", "text/plain", [1], ⟨some [⟨some "ok"⟩], none, some "end_turn"⟩, none⟩

theorem C9_other_mime_witness :
    (processBedrockRecord "mdl" 100 (1 / 2) c9Env true).2.1 = none :=
  (C9_other_mime "mdl" 100 (1 / 2) c9Env true rfl (by decide) rfl).2.1

end BedrockExtract
